import Mathlib

/-!
A verification development for the agenda action-item extraction and upsert
pipeline (`src/agendas/extract_and_sync.py` and
`src/google_calendar/drive_agendas.py`).

The Python source is shallowly embedded: pure functions become Lean
functions; effectful calls (the LLM chat completion, `json.loads`, the
hosted-store HTTP calls) become explicit function parameters or explicit
state passing, so that every definition is executable and every branch of
the source control flow is visible in the translation.
-/

/-! ## Python string primitives

Small executable models of the Python `str` operations the pipeline uses:
`strip`, `upper`, `lower`, `startswith`, substring membership (`in`),
`find`, `rfind`.  Case mapping is ASCII, which covers every string the
pipeline compares (all the fixed prefixes and tokens are ASCII). -/

/-- The whitespace characters removed by Python `str.strip()` (ASCII range). -/
def pyIsSpace (c : Char) : Bool :=
  c = ' ' || c = '\t' || c = '\n' || c = '\x0d' || c = '\x0b' || c = '\x0c'

/-- Python `s.strip()`: drop whitespace from both ends. -/
def pyStrip (s : String) : String :=
  ⟨(s.toList.dropWhile pyIsSpace).reverse.dropWhile pyIsSpace |>.reverse⟩

/-- ASCII uppercase of one character. -/
def asciiUpperChar (c : Char) : Char :=
  if 'a' ≤ c ∧ c ≤ 'z' then Char.ofNat (c.toNat - 32) else c

/-- ASCII lowercase of one character. -/
def asciiLowerChar (c : Char) : Char :=
  if 'A' ≤ c ∧ c ≤ 'Z' then Char.ofNat (c.toNat + 32) else c

/-- Python `s.upper()` (ASCII). -/
def pyUpper (s : String) : String := ⟨s.toList.map asciiUpperChar⟩

/-- Python `s.lower()` (ASCII). -/
def pyLower (s : String) : String := ⟨s.toList.map asciiLowerChar⟩

/-- Python `s.startswith(p)`. -/
def pyStartsWith (s p : String) : Bool := p.toList.isPrefixOf s.toList

/-- Substring test on character lists (Python `needle in haystack`). -/
def listContains : List Char → List Char → Bool
  | _, [] => False
  | n, c :: t => n.isPrefixOf (c :: t) || listContains n t

/-- Python `needle in haystack` for strings (empty needle is a member). -/
def strContains (haystack needle : String) : Bool :=
  needle.toList.isEmpty || listContains needle.toList haystack.toList

/-- First index of character `c` in a list, if any (Python `s.find(c)`,
with `-1` modelled as `none`). -/
def firstIdxOf (c : Char) : List Char → Option Nat
  | [] => none
  | x :: t =>
    if x = c then some 0
    else (firstIdxOf c t).map (· + 1)

/-- Last index of character `c` in a list, if any (Python `s.rfind(c)`,
with `-1` modelled as `none`). -/
def lastIdxOf (c : Char) : List Char → Option Nat
  | [] => none
  | x :: t =>
    match lastIdxOf c t with
    | some i => some (i + 1)
    | none => if x = c then some 0 else none

/-! ## SHA-256

Executable SHA-256 over byte lists (`Nat`s below 256), as used by
`hashlib.sha256(...).hexdigest()` in `make_external_id`.  32-bit words are
`Nat`s reduced mod `2^32`. -/

/-- Reduce to a 32-bit word. -/
def m32 (x : Nat) : Nat := x % 4294967296

/-- 32-bit right rotation. -/
def rotr32 (n x : Nat) : Nat := m32 ((x >>> n) ||| (x <<< (32 - n)))

/-- SHA-256 big sigma 0. -/
def bSig0 (x : Nat) : Nat := rotr32 2 x ^^^ rotr32 13 x ^^^ rotr32 22 x

/-- SHA-256 big sigma 1. -/
def bSig1 (x : Nat) : Nat := rotr32 6 x ^^^ rotr32 11 x ^^^ rotr32 25 x

/-- SHA-256 small sigma 0. -/
def sSig0 (x : Nat) : Nat := rotr32 7 x ^^^ rotr32 18 x ^^^ (x >>> 3)

/-- SHA-256 small sigma 1. -/
def sSig1 (x : Nat) : Nat := rotr32 17 x ^^^ rotr32 19 x ^^^ (x >>> 10)

/-- SHA-256 round constants (the 32 high bits of the cube roots of the
first 64 primes, in decimal). -/
def shaK : List Nat :=
  [1116352408, 1899447441, 3049323471, 3921009573,
   961987163, 1508970993, 2453635748, 2870763221,
   3624381080, 310598401, 607225278, 1426881987,
   1925078388, 2162078206, 2614888103, 3248222580,
   3835390401, 4022224774, 264347078, 604807628,
   770255983, 1249150122, 1555081692, 1996064986,
   2554220882, 2821834349, 2952996808, 3210313671,
   3336571891, 3584528711, 113926993, 338241895,
   666307205, 773529912, 1294757372, 1396182291,
   1695183700, 1986661051, 2177026350, 2456956037,
   2730485921, 2820302411, 3259730800, 3345764771,
   3516065817, 3600352804, 4094571909, 275423344,
   430227734, 506948616, 659060556, 883997877,
   958139571, 1322822218, 1537002063, 1747873779,
   1955562222, 2024104815, 2227730452, 2361852424,
   2428436474, 2756734187, 3204031479, 3329325298]

/-- SHA-256 initial hash state (decimal). -/
def shaH0 : List Nat :=
  [1779033703, 3144134277, 1013904242, 2773480762,
   1359893119, 2600822924, 528734635, 1541459225]

/-- One step of the message-schedule extension: append word `w[t]` computed
from the last 16 words of the accumulated schedule. -/
def schedStep (w : List Nat) : List Nat :=
  let n := w.length
  w ++ [m32 (sSig1 (w.getD (n - 2) 0) + w.getD (n - 7) 0 +
             sSig0 (w.getD (n - 15) 0) + w.getD (n - 16) 0)]

/-- Extend 16 message words to the 64-word schedule. -/
def extendSchedule (w16 : List Nat) : List Nat :=
  (List.range 48).foldl (fun acc _ => schedStep acc) w16

/-- The eight SHA-256 working variables. -/
structure Sha8 where
  a : Nat
  b : Nat
  c : Nat
  d : Nat
  e : Nat
  f : Nat
  g : Nat
  h : Nat
deriving Repr, DecidableEq

/-- One compression round, consuming one `(k, w)` pair. -/
def shaRound (s : Sha8) (kw : Nat × Nat) : Sha8 :=
  let ch := (s.e &&& s.f) ^^^ ((s.e ^^^ 4294967295) &&& s.g)
  let maj := (s.a &&& s.b) ^^^ (s.a &&& s.c) ^^^ (s.b &&& s.c)
  let t1 := m32 (s.h + bSig1 s.e + ch + kw.1 + kw.2)
  let t2 := m32 (bSig0 s.a + maj)
  { a := m32 (t1 + t2), b := s.a, c := s.b, d := s.c,
    e := m32 (s.d + t1), f := s.e, g := s.f, h := s.g }

/-- Compress one 64-byte block (given as 16 words) into the hash state. -/
def shaCompress (st : List Nat) (w16 : List Nat) : List Nat :=
  let w := extendSchedule w16
  let s0 : Sha8 :=
    { a := st.getD 0 0, b := st.getD 1 0, c := st.getD 2 0, d := st.getD 3 0,
      e := st.getD 4 0, f := st.getD 5 0, g := st.getD 6 0, h := st.getD 7 0 }
  let s := (List.zip shaK w).foldl shaRound s0
  [m32 (st.getD 0 0 + s.a), m32 (st.getD 1 0 + s.b),
   m32 (st.getD 2 0 + s.c), m32 (st.getD 3 0 + s.d),
   m32 (st.getD 4 0 + s.e), m32 (st.getD 5 0 + s.f),
   m32 (st.getD 6 0 + s.g), m32 (st.getD 7 0 + s.h)]

/-- SHA-256 padding: append `0x80`, zeros, and the 64-bit big-endian bit
length, reaching a multiple of 64 bytes. -/
def shaPad (msg : List Nat) : List Nat :=
  let len := msg.length
  let zeros := (64 - ((len + 9) % 64)) % 64
  msg ++ [0x80] ++ List.replicate zeros 0 ++
    (List.range 8).map (fun i => (8 * len) >>> (8 * (7 - i)) % 256)

/-- Split a byte list into 64-byte blocks (fuel-structured so the kernel
can evaluate it; `fuel = l.length` always suffices since each step drops
at least one element). -/
def chunks64Aux : Nat → List Nat → List (List Nat)
  | 0, _ => []
  | _, [] => []
  | fuel + 1, x :: xs => ((x :: xs).take 64) :: chunks64Aux fuel ((x :: xs).drop 64)

/-- Split a byte list into 64-byte blocks. -/
def chunks64 (l : List Nat) : List (List Nat) := chunks64Aux l.length l

/-- Read the 16 big-endian 32-bit words of one 64-byte block. -/
def blockWords (block : List Nat) : List Nat :=
  (List.range 16).map fun i =>
    block.getD (4 * i) 0 <<< 24 ||| block.getD (4 * i + 1) 0 <<< 16 |||
    block.getD (4 * i + 2) 0 <<< 8 ||| block.getD (4 * i + 3) 0

/-- SHA-256 of a byte list: the eight 32-bit words of the digest. -/
def sha256Words (msg : List Nat) : List Nat :=
  ((chunks64 (shaPad msg)).foldl (fun st b => shaCompress st (blockWords b)) shaH0)

/-- Lowercase hex digit for a value below 16. -/
def hexDigit (n : Nat) : Char :=
  if n < 10 then Char.ofNat (48 + n) else Char.ofNat (87 + n)

/-- Render one 32-bit word as 8 lowercase hex digits. -/
def wordHex (w : Nat) : List Char :=
  (List.range 8).map fun i => hexDigit ((w >>> (4 * (7 - i))) % 16)

/-- UTF-8 encoding of one character (code point) as bytes. -/
def utf8Char (c : Char) : List Nat :=
  let n := c.toNat
  if n < 0x80 then [n]
  else if n < 0x800 then [0xc0 ||| (n >>> 6), 0x80 ||| (n &&& 0x3f)]
  else if n < 0x10000 then
    [0xe0 ||| (n >>> 12), 0x80 ||| ((n >>> 6) &&& 0x3f), 0x80 ||| (n &&& 0x3f)]
  else
    [0xf0 ||| (n >>> 18), 0x80 ||| ((n >>> 12) &&& 0x3f),
     0x80 ||| ((n >>> 6) &&& 0x3f), 0x80 ||| (n &&& 0x3f)]

/-- Python `s.encode("utf-8")` as a byte list. -/
def utf8Bytes (s : String) : List Nat := s.toList.flatMap utf8Char

/-- Python `hashlib.sha256(s.encode("utf-8")).hexdigest()`. -/
def sha256hex (s : String) : String :=
  ⟨(sha256Words (utf8Bytes s)).flatMap wordHex⟩

set_option maxRecDepth 20000

/-- Known-answer check: SHA-256 of the empty string. -/
theorem sha256hex_empty :
    sha256hex "" = "e3b0c44298fc1c149afbf4c8996fb92427ae41e4649b934ca495991b7852b855" := by
  decide

/-- Known-answer check: SHA-256 of `"abc"`. -/
theorem sha256hex_abc :
    sha256hex "abc" = "ba7816bf8f01cfea414140de5dae2223b00361a396177a9cb410ff61f20015ad" := by
  decide

/-! ## External ID (`make_external_id`)

From `extract_and_sync.py` lines 430-436: the stable de-duplication key is
the SHA-256 hex digest of
`source_doc + "::" + (paragraph_index if not None else "NA") + "::" + text.strip()`. -/

/-- The string interpolated for the paragraph index: the decimal rendering
of the index, or `"NA"` when it is absent (`None`). -/
def externalIdIndexStr (paragraphIndex : Option Int) : String :=
  match paragraphIndex with
  | some i => toString i
  | none => "NA"

/-- The pre-hash base string of `make_external_id`. -/
def externalIdBase (source_doc : String) (paragraphIndex : Option Int)
    (text : String) : String :=
  source_doc ++ "::" ++ externalIdIndexStr paragraphIndex ++ "::" ++ pyStrip text

/-- The function `make_external_id(source_doc, paragraph_index, text)`. -/
def make_external_id (source_doc : String) (paragraphIndex : Option Int)
    (text : String) : String :=
  sha256hex (externalIdBase source_doc paragraphIndex text)

/-! ## Document reader (`parse_docx`)

From `extract_and_sync.py` lines 82-149.  A source paragraph is its raw
text, its style name, and its formatting runs; the reader skips blank
paragraphs, runs the sticky section-status state machine over the done /
working section-header prefixes, computes the strikethrough ratio from
the runs, and derives `status_hint`.

The paragraph `strike_ratio` is kept as the exact rational
`strike_chars / total_chars` (the value the source compares against
`0.60`); the source additionally rounds the stored copy to three decimals
for display in the LLM prompt, a presentation detail no claim depends on. -/

/-- One formatting run of a docx paragraph: its text and whether its font
carries strikethrough. -/
structure DocxRun where
  text : String
  strike : Bool
deriving Repr, DecidableEq

/-- One raw docx paragraph: `p.text`, `p.style.name`, `p.runs`. -/
structure DocxPara where
  text : String
  style : String
  runs : List DocxRun
deriving Repr, DecidableEq

/-- A paragraph record produced by `parse_docx`. -/
structure ParagraphRecord where
  index : Nat
  text : String
  style : String
  has_strike : Bool
  strike_ratio : ℚ
  section_status_hint : Option String
  status_hint : String
deriving Repr, DecidableEq, Inhabited

/-- The `DONE_SECTION_PREFIXES` list. -/
def doneSectionHeads : List String := ["DONE -", "DONE:", "COMPLETED -", "COMPLETED:"]

/-- The `WORKING_SECTION_PREFIXES` list. -/
def workingSectionHeads : List String :=
  ["[working on]", "WORKING ON", "IN PROGRESS", "[in progress]"]

/-- The section-header switch applied to one non-blank paragraph text:
upper-case the stripped text; a done-prefix switches the running section
status to `"done"`, a working-prefix (compared upper-cased) switches it to
`"todo"`, anything else keeps the previous value. -/
def sectionSwitch (cur : Option String) (text : String) : Option String :=
  let upper := pyUpper (pyStrip text)
  if doneSectionHeads.any (fun p => pyStartsWith upper p) then some "done"
  else if workingSectionHeads.any (fun p => pyStartsWith upper (pyUpper p)) then some "todo"
  else cur

/-- Strikethrough statistics of the runs of a paragraph: total characters,
struck characters, and whether any non-empty run is struck. Empty runs are
skipped, as in the source. -/
def strikeStats (runs : List DocxRun) : Nat × Nat × Bool :=
  runs.foldl
    (fun acc r =>
      if r.text = "" then acc
      else
        (acc.1 + r.text.length,
         (if r.strike then acc.2.1 + r.text.length else acc.2.1),
         acc.2.2 || r.strike))
    (0, 0, false)

/-- The `strike_ratio` value: struck characters over total characters (as an exact
rational, via `mkRat` so the kernel can evaluate it), `0` when the
paragraph has no run characters. -/
def strikeRatio (runs : List DocxRun) : ℚ :=
  let st := strikeStats runs
  if st.1 = 0 then 0 else mkRat st.2.1 st.1

/-- The `0.60` strikethrough threshold, as an exact rational. -/
def strikeThreshold : ℚ := mkRat 3 5

/-- The `status_hint` decision: `"done"` when the running section status is
`"done"`, else `"done"` when the paragraph is mostly struck
(`has_strike` and ratio at least `0.60`), else `"todo"`. -/
def statusHintOf (cur : Option String) (hasStrike : Bool) (ratio : ℚ) : String :=
  if cur = some "done" then "done"
  else if hasStrike = true ∧ strikeThreshold ≤ ratio then "done"
  else "todo"

/-- The body of the `parse_docx` loop, recursing over the enumerated
paragraphs and threading the sticky section status. -/
def parseDocxAux (cur : Option String) (idx : Nat) : List DocxPara → List ParagraphRecord
  | [] => []
  | p :: rest =>
    let text := pyStrip p.text
    if text = "" then parseDocxAux cur (idx + 1) rest
    else
      let cur' := sectionSwitch cur text
      let st := strikeStats p.runs
      let ratio := strikeRatio p.runs
      { index := idx, text := text, style := p.style,
        has_strike := st.2.2, strike_ratio := ratio,
        section_status_hint := cur',
        status_hint := statusHintOf cur' st.2.2 ratio } ::
      parseDocxAux cur' (idx + 1) rest

/-- The reader `parse_docx`: the paragraph records of a document. -/
def parse_docx (ps : List DocxPara) : List ParagraphRecord :=
  parseDocxAux none 0 ps

/-- Each emitted record carries a `status_hint` equal to `statusHintOf` of its own stored
section hint, strike flag and ratio (the loop writes exactly those values
into the record it emits). -/
theorem parseDocxAux_status_hint (cur : Option String) (idx : Nat)
    (ps : List DocxPara) :
    ∀ r ∈ parseDocxAux cur idx ps,
      r.status_hint = statusHintOf r.section_status_hint r.has_strike r.strike_ratio := by
  induction ps generalizing cur idx with
  | nil => intro r h; simp [parseDocxAux] at h
  | cons p rest ih =>
    intro r h
    rw [parseDocxAux] at h
    by_cases hp : pyStrip p.text = ""
    · rw [if_pos hp] at h
      exact ih _ _ r h
    · rw [if_neg hp] at h
      rcases List.mem_cons.mp h with h | h
      · subst h; rfl
      · exact ih _ _ r h

/-- The decision `statusHintOf` yields `"done"` exactly when the section hint is
`"done"` or the paragraph is mostly struck. -/
theorem statusHintOf_done_iff (c : Option String) (b : Bool) (q : ℚ) :
    statusHintOf c b q = "done" ↔ (c = some "done" ∨ (b = true ∧ strikeThreshold ≤ q)) := by
  unfold statusHintOf
  split
  next hc => simp [hc]
  next hc =>
    split
    next hs => simp [hs.1, hs.2]
    next hs =>
      constructor
      · intro habs; exact absurd habs (by decide)
      · intro hor
        rcases hor with h | h
        · exact absurd h hc
        · exact absurd h hs

/-- The decision `statusHintOf` only ever yields `"done"` or `"todo"`. -/
theorem statusHintOf_cases (c : Option String) (b : Bool) (q : ℚ) :
    statusHintOf c b q = "done" ∨ statusHintOf c b q = "todo" := by
  unfold statusHintOf
  split
  · exact Or.inl rfl
  · split
    · exact Or.inl rfl
    · exact Or.inr rfl

/-- C2. Status-hint invariant: for every paragraph record produced by
`parse_docx`, `status_hint = "done"` iff the stored section hint is
`"done"` or the paragraph has strikethrough with ratio at least `0.60`,
and in every other case `status_hint = "todo"`; in particular a paragraph
with `has_strike = true`, ratio `0.75` and no section hint gets `"done"`,
and one with ratio `0.40` gets `"todo"`. -/
theorem C2_status_hint_invariant :
    (∀ ps : List DocxPara, ∀ r ∈ parse_docx ps,
        (r.status_hint = "done" ↔
          (r.section_status_hint = some "done" ∨
            (r.has_strike = true ∧ strikeThreshold ≤ r.strike_ratio))) ∧
        (r.status_hint = "done" ∨ r.status_hint = "todo")) ∧
    (parse_docx [⟨"task", "Normal", [⟨"tas", true⟩, ⟨"k", false⟩]⟩]).map
        (fun r => (r.has_strike, r.strike_ratio, r.section_status_hint, r.status_hint))
      = [(true, mkRat 3 4, none, "done")] ∧
    (parse_docx [⟨"hello", "Normal", [⟨"he", true⟩, ⟨"llo", false⟩]⟩]).map
        (fun r => (r.has_strike, r.strike_ratio, r.section_status_hint, r.status_hint))
      = [(true, mkRat 2 5, none, "todo")] := by
  refine ⟨?_, by decide, by decide⟩
  intro ps r hr
  have h := parseDocxAux_status_hint none 0 ps r hr
  rw [h]
  exact ⟨statusHintOf_done_iff _ _ _, statusHintOf_cases _ _ _⟩

/-- C2 witness: instantiating the invariant at a concrete document. -/
theorem C2_status_hint_invariant_witness :
    ∀ r ∈ parse_docx [⟨"task", "Normal", [⟨"tas", true⟩, ⟨"k", false⟩]⟩],
      (r.status_hint = "done" ↔
        (r.section_status_hint = some "done" ∨
          (r.has_strike = true ∧ strikeThreshold ≤ r.strike_ratio))) ∧
      (r.status_hint = "done" ∨ r.status_hint = "todo") :=
  C2_status_hint_invariant.1 [⟨"task", "Normal", [⟨"tas", true⟩, ⟨"k", false⟩]⟩]

/-- The four-paragraph document of the section-stickiness example, with
the formatting runs of the second and fourth paragraphs left free. -/
def c3Doc (runs2 runs4 : List DocxRun) : List DocxPara :=
  [⟨"DONE - Fri", "Normal", []⟩,
   ⟨"buy milk", "Normal", runs2⟩,
   ⟨"WORKING ON", "Normal", []⟩,
   ⟨"call bob", "Normal", runs4⟩]

/-- Computing `parse_docx` on the stickiness example: the section state
switches to `"done"` at the first header, sticks for the second paragraph,
switches to `"todo"` at the third, and sticks for the fourth; the fourth
record has a `status_hint` still gated by its own strike formatting. -/
theorem parse_docx_c3Doc (runs2 runs4 : List DocxRun) :
    parse_docx (c3Doc runs2 runs4) =
      [{ index := 0, text := "DONE - Fri", style := "Normal", has_strike := false,
         strike_ratio := 0, section_status_hint := some "done", status_hint := "done" },
       { index := 1, text := "buy milk", style := "Normal",
         has_strike := (strikeStats runs2).2.2, strike_ratio := strikeRatio runs2,
         section_status_hint := some "done", status_hint := "done" },
       { index := 2, text := "WORKING ON", style := "Normal", has_strike := false,
         strike_ratio := 0, section_status_hint := some "todo", status_hint := "todo" },
       { index := 3, text := "call bob", style := "Normal",
         has_strike := (strikeStats runs4).2.2, strike_ratio := strikeRatio runs4,
         section_status_hint := some "todo",
         status_hint := statusHintOf (some "todo") (strikeStats runs4).2.2
                          (strikeRatio runs4) }] := rfl

/-- C3 counterexample: with the fourth paragraph (`"call bob"`) fully
struck through, its `status_hint` is `"done"`, not `"todo"` — so the
fourth-paragraph hint is not `"todo"` regardless of its own formatting. -/
theorem C3_counterexample :
    (parse_docx (c3Doc [] [⟨"call bob", true⟩])).map (fun r => r.status_hint)
      = ["done", "done", "todo", "done"] ∧
    ¬ ((parse_docx (c3Doc [] [⟨"call bob", true⟩])).map (fun r => r.status_hint)
        = ["done", "done", "todo", "todo"]) := by
  constructor
  · decide
  · decide

/-- C3 amended. Section stickiness: the running section status switches to
`"done"` at a done-header, to `"todo"` at a working-header, and otherwise
keeps its previous value for every subsequent paragraph (it never resets);
on the example document the second paragraph gets `status_hint` `"done"`
regardless of its own formatting, and the fourth paragraph gets
`status_hint` `"todo"` unless its own strikethrough formatting marks it
done (`has_strike` with ratio at least `0.60`). -/
theorem C3_section_stickiness_amended :
    (∀ cur : Option String, ∀ text : String,
        (doneSectionHeads.any (fun p => pyStartsWith (pyUpper (pyStrip text)) p) = true →
          sectionSwitch cur text = some "done") ∧
        (doneSectionHeads.any (fun p => pyStartsWith (pyUpper (pyStrip text)) p) = false →
         workingSectionHeads.any
             (fun p => pyStartsWith (pyUpper (pyStrip text)) (pyUpper p)) = true →
          sectionSwitch cur text = some "todo") ∧
        (doneSectionHeads.any (fun p => pyStartsWith (pyUpper (pyStrip text)) p) = false →
         workingSectionHeads.any
             (fun p => pyStartsWith (pyUpper (pyStrip text)) (pyUpper p)) = false →
          sectionSwitch cur text = cur)) ∧
    (∀ runs2 runs4 : List DocxRun,
        (parse_docx (c3Doc runs2 runs4)).map (fun r => r.section_status_hint)
          = [some "done", some "done", some "todo", some "todo"] ∧
        ((parse_docx (c3Doc runs2 runs4)).getD 1 default).status_hint = "done" ∧
        (((parse_docx (c3Doc runs2 runs4)).getD 3 default).status_hint = "todo" ↔
          ¬ ((strikeStats runs4).2.2 = true ∧ strikeThreshold ≤ strikeRatio runs4))) := by
  constructor
  · intro cur text
    refine ⟨fun h1 => ?_, fun h1 h2 => ?_, fun h1 h2 => ?_⟩
    · simp [sectionSwitch, h1]
    · simp [sectionSwitch, h1, h2]
    · simp [sectionSwitch, h1, h2]
  · intro runs2 runs4
    rw [parse_docx_c3Doc]
    refine ⟨rfl, rfl, ?_⟩
    have hcase := statusHintOf_cases (some "todo") (strikeStats runs4).2.2 (strikeRatio runs4)
    have hiff := statusHintOf_done_iff (some "todo") (strikeStats runs4).2.2 (strikeRatio runs4)
    show statusHintOf (some "todo") (strikeStats runs4).2.2 (strikeRatio runs4) = "todo" ↔ _
    constructor
    · intro htodo hstk
      have hd : statusHintOf (some "todo") (strikeStats runs4).2.2 (strikeRatio runs4) = "done" :=
        hiff.mpr (Or.inr hstk)
      rw [htodo] at hd
      exact absurd hd (by decide)
    · intro hnot
      rcases hcase with hdone | htodo
      · rcases hiff.mp hdone with h | h
        · exact absurd h (by decide)
        · exact absurd h hnot
      · exact htodo

/-- C3 amended witness: the stickiness facts at the concrete example with
an unstruck fourth paragraph. -/
theorem C3_section_stickiness_amended_witness :
    sectionSwitch none "DONE - Fri" = some "done" ∧
    sectionSwitch (some "done") "buy milk" = some "done" ∧
    (parse_docx (c3Doc [] [⟨"call bob", false⟩])).map (fun r => r.section_status_hint)
      = [some "done", some "done", some "todo", some "todo"] ∧
    ((parse_docx (c3Doc [] [⟨"call bob", false⟩])).getD 3 default).status_hint = "todo" :=
  ⟨(C3_section_stickiness_amended.1 none "DONE - Fri").1 (by decide),
   (C3_section_stickiness_amended.1 (some "done") "buy milk").2.2 (by decide) (by decide),
   (C3_section_stickiness_amended.2 [] [⟨"call bob", false⟩]).1,
   ((C3_section_stickiness_amended.2 [] [⟨"call bob", false⟩]).2.2).mpr (by decide)⟩

/-- Two index renderings that differ force different pre-hash base strings
(fixed document name and text): the base string determines the index
component by cancellation on both sides. -/
theorem externalIdBase_index_faithful (d t : String) (i j : Option Int)
    (h : externalIdBase d i t = externalIdBase d j t) :
    externalIdIndexStr i = externalIdIndexStr j := by
  have hdata := congrArg String.data h
  simp only [externalIdBase, String.data_append, List.append_assoc] at hdata
  have h1 := List.append_cancel_left hdata
  have h2 := List.append_cancel_left h1
  have h3 := List.append_cancel_right h2
  exact String.ext h3

/-- C5. External ID definition and stability: `make_external_id` is the
SHA-256 hex digest of `source_doc ++ "::" ++ (index or "NA") ++ "::" ++
trimmed text`; it is deterministic; base strings with different index
renderings are distinct; and at the spec instance, changing the paragraph
index from 7 to 8 with document name and text fixed changes the hash. -/
theorem C5_external_id_stability :
    (∀ (d : String) (i : Option Int) (t : String),
        make_external_id d i t =
          sha256hex (d ++ "::" ++ externalIdIndexStr i ++ "::" ++ pyStrip t)) ∧
    (∀ (d₁ : String) (i₁ : Option Int) (t₁ : String)
       (d₂ : String) (i₂ : Option Int) (t₂ : String),
        d₁ = d₂ → i₁ = i₂ → t₁ = t₂ →
          make_external_id d₁ i₁ t₁ = make_external_id d₂ i₂ t₂) ∧
    (∀ (d t : String) (i j : Option Int),
        externalIdIndexStr i ≠ externalIdIndexStr j →
          externalIdBase d i t ≠ externalIdBase d j t) ∧
    make_external_id "agenda.docx" (some 7) "Email Nick"
      = "b0341e3859d8abf25e2fbcff4b350dcb618ca3bdc52f5a88edafc23a660db17f" ∧
    make_external_id "agenda.docx" (some 8) "Email Nick"
      = "51249c244e197ec9d989dcf847794ef03e0928ce92d3c5d56e02f8f9c6d2fab5" ∧
    make_external_id "agenda.docx" (some 7) "Email Nick"
      ≠ make_external_id "agenda.docx" (some 8) "Email Nick" := by
  refine ⟨fun d i t => rfl, ?_, ?_, by decide, by decide, by decide⟩
  · intro d₁ i₁ t₁ d₂ i₂ t₂ hd hi ht
    rw [hd, hi, ht]
  · intro d t i j hne habs
    exact hne (externalIdBase_index_faithful d t i j habs)

/-- C5 witness: the determinism and index-sensitivity conjuncts applied at
the spec instance. -/
theorem C5_external_id_stability_witness :
    make_external_id "agenda.docx" (some 7) "Email Nick"
      = make_external_id "agenda.docx" (some 7) "Email Nick" ∧
    externalIdBase "agenda.docx" (some 7) "Email Nick"
      ≠ externalIdBase "agenda.docx" (some 8) "Email Nick" :=
  ⟨C5_external_id_stability.2.1 "agenda.docx" (some 7) "Email Nick"
      "agenda.docx" (some 7) "Email Nick" rfl rfl rfl,
   C5_external_id_stability.2.2.1 "agenda.docx" "Email Nick" (some 7) (some 8)
      (by decide)⟩

/-! ## LLM extraction (`extract_action_items_with_llm`,
`extract_action_items_from_notes_text`)

From `extract_and_sync.py` lines 170-310.  The chat-completion call is an
oracle `llm : String → String` from prompt to raw response; `json.loads`
restricted to a JSON array of action-item objects is an oracle
`jsonLoads : String → Option (List RawItem)` (`none` models
`json.JSONDecodeError`).  Each extraction function also returns the list
of prompts it sent, making "no LLM invocation" an explicit, provable
fact. -/

/-- A JSON object in the array returned by the LLM, field by field: `none` is a
missing key, `some none` a key present with JSON `null`, `some (some v)` a
key with a value (fields are given their expected JSON types). -/
structure RawItem where
  text : Option (Option String) := none
  owner : Option (Option String) := none
  owner_email : Option (Option String) := none
  due_date : Option (Option String) := none
  priority : Option (Option String) := none
  status : Option (Option String) := none
  context : Option (Option String) := none
  paragraph_index : Option (Option Int) := none
deriving Repr, DecidableEq

/-- A normalized action item.  The four provenance fields are attached
only by the Drive folder walk (`process_doc`) and default to `none`. -/
structure ActionItem where
  text : String
  owner : Option String := none
  owner_email : Option String := none
  due_date : Option String := none
  priority : Option String := some "medium"
  status : String := "todo"
  context : Option String := none
  paragraph_index : Option Int := none
  source_category : Option String := none
  source_folder : Option String := none
  source_doc : Option String := none
  doc_link : Option String := none
deriving Repr, DecidableEq, Inhabited

/-- Python `item.get(k)`: missing key and `null` value both give `None`. -/
def getFlat {α : Type} (x : Option (Option α)) : Option α :=
  match x with
  | some v => v
  | none => none

/-- Python `(item.get("status") or "todo").strip().lower()`, then coercion of any
value outside `todo` / `done` back to `"todo"` (an empty or `null` status
is falsy in Python and also becomes `"todo"`). -/
def normStatus (st : Option (Option String)) : String :=
  let s0 :=
    match st with
    | some (some s) => if s = "" then "todo" else s
    | _ => "todo"
  let s1 := pyLower (pyStrip s0)
  if s1 = "todo" ∨ s1 = "done" then s1 else "todo"

/-- Python `item.get("text") or ""`. -/
def normText (t : Option (Option String)) : String :=
  match t with
  | some (some s) => s
  | _ => ""

/-- Python `item.get("priority", "medium")`: the default applies only when the
key is missing; an explicit `null` stays `null`. -/
def normPriority (p : Option (Option String)) : Option String :=
  match p with
  | none => some "medium"
  | some v => v

/-- The normalization applied to each parsed item on the document path
(`paragraph_index` defaults to `None` when the key is missing). -/
def normalizeDocItem (it : RawItem) : ActionItem :=
  { text := normText it.text,
    owner := getFlat it.owner,
    owner_email := getFlat it.owner_email,
    due_date := getFlat it.due_date,
    priority := normPriority it.priority,
    status := normStatus it.status,
    context := getFlat it.context,
    paragraph_index :=
      match it.paragraph_index with
      | none => none
      | some v => v }

/-- The normalization applied to each parsed item on the free-form-notes
path: identical, except a missing `paragraph_index` defaults to the
ordinal position `i` of the item in the returned array. -/
def normalizeFreeItem (i : Nat) (it : RawItem) : ActionItem :=
  { text := normText it.text,
    owner := getFlat it.owner,
    owner_email := getFlat it.owner_email,
    due_date := getFlat it.due_date,
    priority := normPriority it.priority,
    status := normStatus it.status,
    context := getFlat it.context,
    paragraph_index :=
      match it.paragraph_index with
      | none => some (Int.ofNat i)
      | some v => v }

/-- The bracket-salvage substring: `raw[start : end + 1]` for
`start = raw.find("[")` and `end = raw.rfind("]")`, available only when
both exist and `end > start`. -/
def salvageSlice (raw : String) : Option String :=
  let cs := raw.toList
  match firstIdxOf '[' cs, lastIdxOf ']' cs with
  | some st, some en => if st < en then some ⟨(cs.drop st).take (en + 1 - st)⟩ else none
  | _, _ => none

/-- The robust-parse region of `extract_action_items_with_llm`
(lines 246-255): strict parse, then bracket salvage; a salvage substring
that itself fails to parse propagates the JSON decode error, and only a
missing bracket pair raises the `ValueError`. -/
def parseLLMResponseDoc (jsonLoads : String → Option (List RawItem))
    (raw : String) : Except String (List RawItem) :=
  match jsonLoads raw with
  | some parsed => .ok parsed
  | none =>
    match salvageSlice raw with
    | some sub =>
      match jsonLoads sub with
      | some parsed => .ok parsed
      | none => .error "json.decoder.JSONDecodeError"
    | none => .error "Could not parse JSON array from LLM output."

/-- The robust-parse region of `extract_action_items_from_notes_text`
(lines 286-294): as the document path, except a missing bracket pair
returns an empty parse instead of raising; a failing salvage parse still
propagates the JSON decode error. -/
def parseLLMResponseNotes (jsonLoads : String → Option (List RawItem))
    (raw : String) : Except String (List RawItem) :=
  match jsonLoads raw with
  | some parsed => .ok parsed
  | none =>
    match salvageSlice raw with
    | some sub =>
      match jsonLoads sub with
      | some parsed => .ok parsed
      | none => .error "json.decoder.JSONDecodeError"
    | none => .ok []

/-- The template `EXTRACTION_PROMPT_TEMPLATE` up to the `{meeting_text}` slot. -/
def DOC_PROMPT_HEAD : String :=
  "\nYou are a JSON-only extractor. Extract action items from the meeting notes below.\n\nEach line begins with a paragraph index and a status hint tag:\n- If tagged [DONE], the extracted action item MUST have \"status\": \"done\"\n- If tagged [TODO], the extracted action item MUST have \"status\": \"todo\" unless the text clearly indicates it is already completed.\n\nReturn a JSON array of objects exactly like:\n[\n  \x7b\n    \"text\": \"short description (required)\",\n    \"owner\": \"Full Name or null\",\n    \"owner_email\": \"email or null\",\n    \"due_date\": \"YYYY-MM-DD or null\",\n    \"priority\": \"low|medium|high\",\n    \"status\": \"todo|done\",\n    \"context\": \"one sentence summary of where it came from\",\n    \"paragraph_index\": 12\n  \x7d,\n  ...\n]\n\nMeeting notes:\n"

/-- The tail of both prompt templates, after the `{meeting_text}` slot. -/
def PROMPT_TAIL : String :=
  "\n\nImportant: Return only valid JSON array. If there are no action items, return [].\n"

/-- The template `EXTRACTION_PROMPT_RAW_NOTES` up to the `{meeting_text}` slot. -/
def RAW_NOTES_PROMPT_HEAD : String :=
  "\nYou are a JSON-only extractor. Extract action items and to-dos from the meeting notes below.\nThe notes are free-form (agendas, discussion points, decisions). Identify any actionable items, tasks, or to-dos.\n\nReturn a JSON array of objects exactly like:\n[\n  \x7b\n    \"text\": \"short description (required)\",\n    \"owner\": \"Full Name or null\",\n    \"owner_email\": \"email or null\",\n    \"due_date\": \"YYYY-MM-DD or null\",\n    \"priority\": \"low|medium|high\",\n    \"status\": \"todo\",\n    \"context\": \"one sentence summary of where it came from\",\n    \"paragraph_index\": 0\n  \x7d,\n  ...\n]\n\nMeeting notes:\n"

/-- Python `EXTRACTION_PROMPT_TEMPLATE.format(meeting_text=...)`. -/
def formatDocPrompt (meeting_text : String) : String :=
  DOC_PROMPT_HEAD ++ meeting_text ++ PROMPT_TAIL

/-- Python `EXTRACTION_PROMPT_RAW_NOTES.format(meeting_text=...)`. -/
def formatRawNotesPrompt (meeting_text : String) : String :=
  RAW_NOTES_PROMPT_HEAD ++ meeting_text ++ PROMPT_TAIL

/-- The function `extract_action_items_with_llm(meeting_text)`: format the prompt, call
the LLM, robust-parse, normalize.  The second component records the
prompts sent to the LLM. -/
def extract_action_items_with_llm (jsonLoads : String → Option (List RawItem))
    (llm : String → String) (meeting_text : String) :
    Except String (List ActionItem) × List String :=
  let prompt := formatDocPrompt meeting_text
  let raw := llm prompt
  ((parseLLMResponseDoc jsonLoads raw).map (fun parsed => parsed.map normalizeDocItem),
   [prompt])

/-- The function `extract_action_items_from_notes_text(meeting_notes)`: empty input
short-circuits to an empty list with no LLM call; otherwise format the
raw-notes prompt from the stripped notes, call the LLM, robust-parse,
normalize with ordinal paragraph-index defaults. -/
def extract_action_items_from_notes_text (jsonLoads : String → Option (List RawItem))
    (llm : String → String) (meeting_notes : String) :
    Except String (List ActionItem) × List String :=
  if (if meeting_notes = "" then pyStrip meeting_notes else meeting_notes) = "" then
    (.ok [], [])
  else
    let prompt := formatRawNotesPrompt (pyStrip meeting_notes)
    let raw := llm prompt
    ((parseLLMResponseNotes jsonLoads raw).map
        (fun parsed => parsed.enum.map (fun p => normalizeFreeItem p.1 p.2)),
     [prompt])

/-- C4 counterexample: with a JSON oracle that fails on every string (as
`json.loads` does on `"Result: [oops]"` and on its bracket substring
`"[oops]"`), both parse attempts of the free-form path fail, yet
`extract_action_items_from_notes_text` propagates the JSON decode error
instead of returning the empty list. -/
theorem C4_counterexample :
    (extract_action_items_from_notes_text (fun _ => none) (fun _ => "Result: [oops]")
        "some notes").1
      = .error "json.decoder.JSONDecodeError" ∧
    (extract_action_items_from_notes_text (fun _ => none) (fun _ => "Result: [oops]")
        "some notes").1
      ≠ .ok [] := by
  constructor
  · rfl
  · intro h
    have h2 : (Except.error "json.decoder.JSONDecodeError" :
        Except String (List ActionItem)) = .ok [] := h
    exact Except.noConfusion h2

/-- C4 amended. Tolerant JSON parse: extraction first attempts a strict
parse of the whole response; on failure it parses the inclusive substring
between the first `[` and the last `]`; when both attempts fail because no
valid bracket pair exists, the document path raises the parse error while
the free-form path returns the empty list — but when a bracket pair exists
and its substring also fails to parse, both paths propagate the JSON
decode error. -/
theorem C4_tolerant_parse_amended
    (jsonLoads : String → Option (List RawItem)) (raw : String) :
    (∀ arr, jsonLoads raw = some arr →
        parseLLMResponseDoc jsonLoads raw = .ok arr ∧
        parseLLMResponseNotes jsonLoads raw = .ok arr) ∧
    (∀ sub arr, jsonLoads raw = none → salvageSlice raw = some sub →
        jsonLoads sub = some arr →
        parseLLMResponseDoc jsonLoads raw = .ok arr ∧
        parseLLMResponseNotes jsonLoads raw = .ok arr) ∧
    (jsonLoads raw = none → salvageSlice raw = none →
        parseLLMResponseDoc jsonLoads raw
          = .error "Could not parse JSON array from LLM output." ∧
        parseLLMResponseNotes jsonLoads raw = .ok []) ∧
    (∀ sub, jsonLoads raw = none → salvageSlice raw = some sub →
        jsonLoads sub = none →
        parseLLMResponseDoc jsonLoads raw = .error "json.decoder.JSONDecodeError" ∧
        parseLLMResponseNotes jsonLoads raw = .error "json.decoder.JSONDecodeError") := by
  refine ⟨?_, ?_, ?_, ?_⟩
  · intro arr h
    constructor <;> simp [parseLLMResponseDoc, parseLLMResponseNotes, h]
  · intro sub arr h hs hsub
    constructor <;> simp [parseLLMResponseDoc, parseLLMResponseNotes, h, hs, hsub]
  · intro h hs
    constructor <;> simp [parseLLMResponseDoc, parseLLMResponseNotes, h, hs]
  · intro sub h hs hsub
    constructor <;> simp [parseLLMResponseDoc, parseLLMResponseNotes, h, hs, hsub]

/-- C4 amended witness: all four branches exercised at concrete inputs. -/
theorem C4_tolerant_parse_amended_witness :
    parseLLMResponseDoc (fun s => if s = "[]" then some [] else none) "[]" = .ok [] ∧
    parseLLMResponseDoc (fun s => if s = "[]" then some [] else none) "ok: [] end"
      = .ok [] ∧
    (parseLLMResponseDoc (fun _ => none) "not json at all"
        = .error "Could not parse JSON array from LLM output." ∧
      parseLLMResponseNotes (fun _ => none) "not json at all" = .ok []) ∧
    parseLLMResponseNotes (fun _ => none) "Result: [oops]"
      = .error "json.decoder.JSONDecodeError" :=
  ⟨((C4_tolerant_parse_amended (fun s => if s = "[]" then some [] else none) "[]").1
      [] (by decide)).1,
   ((C4_tolerant_parse_amended (fun s => if s = "[]" then some [] else none)
      "ok: [] end").2.1 "[]" [] (by decide) (by decide) (by decide)).1,
   (C4_tolerant_parse_amended (fun _ => none) "not json at all").2.2.1 rfl (by decide),
   ((C4_tolerant_parse_amended (fun _ => none) "Result: [oops]").2.2.2 "[oops]" rfl
      (by decide) rfl).2⟩

/-- C6. Uniform normalization: whichever parse path (strict or
bracket-salvage) produced the array, the document path maps
`normalizeDocItem` and the free-form path maps `normalizeFreeItem` with
ordinal positions over the same parsed items; per item, a present status
whose trimmed lower-casing is `todo` or `done` survives, anything else
(missing, `null`, or another value) is coerced to `"todo"`; missing
`owner`, `owner_email`, `due_date`, `context` default to `null`; missing
`priority` defaults to `"medium"`; a missing `paragraph_index` defaults to
`null` on the document path and to the ordinal position on the free-form
path.  Concretely, status `"MAYBE"` becomes `"todo"` and `"Done"` becomes
`"done"`. -/
theorem C6_uniform_normalization :
    (∀ (jsonLoads : String → Option (List RawItem)) (raw : String)
       (arr : List RawItem),
        (jsonLoads raw = some arr ∨
          (jsonLoads raw = none ∧
            ∃ sub, salvageSlice raw = some sub ∧ jsonLoads sub = some arr)) →
        parseLLMResponseDoc jsonLoads raw = .ok arr ∧
        parseLLMResponseNotes jsonLoads raw = .ok arr) ∧
    (∀ (jsonLoads : String → Option (List RawItem)) (llm : String → String)
       (meeting_text : String) (arr : List RawItem),
        parseLLMResponseDoc jsonLoads (llm (formatDocPrompt meeting_text)) = .ok arr →
        (extract_action_items_with_llm jsonLoads llm meeting_text).1
          = .ok (arr.map normalizeDocItem)) ∧
    (∀ it : RawItem,
        (∀ s, it.status = some (some s) →
          (pyLower (pyStrip s) = "todo" ∨ pyLower (pyStrip s) = "done") →
          (normalizeDocItem it).status = pyLower (pyStrip s)) ∧
        (∀ s, it.status = some (some s) →
          ¬ (pyLower (pyStrip s) = "todo" ∨ pyLower (pyStrip s) = "done") →
          (normalizeDocItem it).status = "todo") ∧
        ((it.status = none ∨ it.status = some none) →
          (normalizeDocItem it).status = "todo") ∧
        (∀ i : Nat, (normalizeFreeItem i it).status = (normalizeDocItem it).status) ∧
        (it.owner = none → (normalizeDocItem it).owner = none) ∧
        (it.owner_email = none → (normalizeDocItem it).owner_email = none) ∧
        (it.due_date = none → (normalizeDocItem it).due_date = none) ∧
        (it.context = none → (normalizeDocItem it).context = none) ∧
        (it.priority = none → (normalizeDocItem it).priority = some "medium") ∧
        (it.paragraph_index = none →
          (normalizeDocItem it).paragraph_index = none ∧
          ∀ i : Nat, (normalizeFreeItem i it).paragraph_index = some (Int.ofNat i))) ∧
    (normalizeDocItem { status := some (some "MAYBE") }).status = "todo" ∧
    (normalizeDocItem { status := some (some "Done") }).status = "done" := by
  refine ⟨?_, ?_, ?_, by decide, by decide⟩
  · intro jsonLoads raw arr h
    rcases h with h | ⟨h, sub, hs, hsub⟩
    · constructor <;> simp [parseLLMResponseDoc, parseLLMResponseNotes, h]
    · constructor <;> simp [parseLLMResponseDoc, parseLLMResponseNotes, h, hs, hsub]
  · intro jsonLoads llm meeting_text arr h
    simp [extract_action_items_with_llm, h, Except.map]
  · intro it
    refine ⟨?_, ?_, ?_, ?_, ?_, ?_, ?_, ?_, ?_, ?_⟩
    · intro s hst hval
      have hrw : (normalizeDocItem it).status = normStatus it.status := rfl
      rw [hrw, hst]
      by_cases hse : s = ""
      · subst hse
        rcases hval with h | h <;> exact absurd h (by decide)
      · show (if pyLower (pyStrip (if s = "" then "todo" else s)) = "todo" ∨
              pyLower (pyStrip (if s = "" then "todo" else s)) = "done" then
              pyLower (pyStrip (if s = "" then "todo" else s))
            else "todo") = pyLower (pyStrip s)
        rw [if_neg hse, if_pos hval]
    · intro s hst hval
      have hrw : (normalizeDocItem it).status = normStatus it.status := rfl
      rw [hrw, hst]
      by_cases hse : s = ""
      · subst hse; decide
      · show (if pyLower (pyStrip (if s = "" then "todo" else s)) = "todo" ∨
              pyLower (pyStrip (if s = "" then "todo" else s)) = "done" then
              pyLower (pyStrip (if s = "" then "todo" else s))
            else "todo") = "todo"
        rw [if_neg hse, if_neg hval]
    · intro h
      have hrw : (normalizeDocItem it).status = normStatus it.status := rfl
      rcases h with h | h <;> rw [hrw, h] <;> decide
    · intro i
      simp [normalizeDocItem, normalizeFreeItem]
    · intro h; simp [normalizeDocItem, getFlat, h]
    · intro h; simp [normalizeDocItem, getFlat, h]
    · intro h; simp [normalizeDocItem, getFlat, h]
    · intro h; simp [normalizeDocItem, getFlat, h]
    · intro h; simp [normalizeDocItem, normPriority, h]
    · intro h
      refine ⟨by simp [normalizeDocItem, h], fun i => by simp [normalizeFreeItem, h]⟩

/-- C6 witness: the normalization facts applied at concrete items, with
each hypothesis discharged at its own instance. -/
theorem C6_uniform_normalization_witness :
    parseLLMResponseDoc (fun s => if s = "x [] y" then none else some [])
        "x [] y" = .ok [] ∧
    (normalizeDocItem { status := some (some " Done ") }).status = "done" ∧
    (normalizeDocItem ({} : RawItem)).status = "todo" ∧
    (normalizeDocItem ({} : RawItem)).owner = none ∧
    (normalizeDocItem ({} : RawItem)).priority = some "medium" ∧
    (normalizeDocItem ({} : RawItem)).paragraph_index = none ∧
    (normalizeFreeItem 3 ({} : RawItem)).paragraph_index = some (Int.ofNat 3) :=
  ⟨((C6_uniform_normalization.1 (fun s => if s = "x [] y" then none else some [])
      "x [] y" []) (Or.inr ⟨by decide, "[]", by decide, by decide⟩)).1,
   (C6_uniform_normalization.2.2.1 { status := some (some " Done ") }).1 " Done "
      rfl (by decide),
   (C6_uniform_normalization.2.2.1 ({} : RawItem)).2.2.1 (Or.inl rfl),
   (C6_uniform_normalization.2.2.1 ({} : RawItem)).2.2.2.2.1 rfl,
   (C6_uniform_normalization.2.2.1 ({} : RawItem)).2.2.2.2.2.2.2.2.1 rfl,
   ((C6_uniform_normalization.2.2.1 ({} : RawItem)).2.2.2.2.2.2.2.2.2 rfl).1,
   ((C6_uniform_normalization.2.2.1 ({} : RawItem)).2.2.2.2.2.2.2.2.2 rfl).2 3⟩

/-! ## Prompt assembly and single-document orchestration
(`join_paragraphs`, `extract_action_items_from_single_docx`)

From `extract_and_sync.py` lines 151-162 and 547-558. -/

/-- Zero-padded 4-wide index (`f"{idx:04d}"`). -/
def pad4 (n : Nat) : String :=
  let s := toString n
  String.mk (List.replicate (4 - s.length) '0') ++ s

/-- Rendering of the stored section hint (`None` / `done` / `todo`). -/
def sectionRepr : Option String → String
  | some s => s
  | none => "None"

/-- Rendering of the strike ratio inside the prompt line.  The source
prints the Python float `round(ratio, 3)`; the exact rational is rendered
instead — a display-only difference inside the LLM prompt text that no
claim depends on. -/
def ratioRepr (q : ℚ) : String := toString q

/-- The assembler `join_paragraphs`: one line per record —
`<0-padded index> <[DONE]/[TODO]> (strike=..., section=...) <text>` —
joined with newlines. -/
def join_paragraphs (pars : List ParagraphRecord) : String :=
  String.intercalate "\n"
    (pars.map fun p =>
      pad4 p.index ++ " " ++
      (if p.status_hint = "done" then "[DONE]" else "[TODO]") ++ " " ++
      "(strike=" ++ ratioRepr p.strike_ratio ++ ", section=" ++
      sectionRepr p.section_status_hint ++ ") " ++ p.text)

/-- The function `extract_action_items_from_single_docx(doc_path)`: parse the document,
join the annotated paragraphs, and return an empty result — without any
LLM call — when the joined text strips to blank; otherwise run the
document-path LLM extraction on the joined text. -/
def extract_action_items_from_single_docx
    (jsonLoads : String → Option (List RawItem)) (llm : String → String)
    (ps : List DocxPara) : Except String (List ActionItem) × List String :=
  let paragraphs := parse_docx ps
  let joined := join_paragraphs paragraphs
  if pyStrip joined = "" then (.ok [], [])
  else extract_action_items_with_llm jsonLoads llm joined

/-- A document whose paragraphs all strip to blank parses to no records. -/
theorem parse_docx_all_blank (ps : List DocxPara)
    (h : ∀ p ∈ ps, pyStrip p.text = "") : parse_docx ps = [] := by
  suffices haux : ∀ (cur : Option String) (idx : Nat), parseDocxAux cur idx ps = [] from
    haux none 0
  induction ps with
  | nil => intro cur idx; rfl
  | cons p rest ih =>
    intro cur idx
    have hp : pyStrip p.text = "" := h p (List.mem_cons_self p rest)
    rw [parseDocxAux, if_pos hp]
    exact ih (fun q hq => h q (List.mem_cons_of_mem p hq)) cur (idx + 1)

/-- C10. Empty input short-circuits without an LLM call: when every
paragraph of the source document strips to blank (so the joined prompt
text is blank), `extract_action_items_from_single_docx` returns the empty
list and sends no prompt to the LLM; likewise
`extract_action_items_from_notes_text` on the empty string returns the
empty list and sends no prompt — both regardless of what the LLM and JSON
oracles would do. -/
theorem C10_empty_input_no_llm_call :
    (∀ (jsonLoads : String → Option (List RawItem)) (llm : String → String)
       (ps : List DocxPara), (∀ p ∈ ps, pyStrip p.text = "") →
        extract_action_items_from_single_docx jsonLoads llm ps = (.ok [], [])) ∧
    (∀ (jsonLoads : String → Option (List RawItem)) (llm : String → String),
        extract_action_items_from_notes_text jsonLoads llm "" = (.ok [], [])) := by
  constructor
  · intro jsonLoads llm ps h
    unfold extract_action_items_from_single_docx
    rw [parse_docx_all_blank ps h]
    rfl
  · intro jsonLoads llm
    rfl

/-- C10 witness: a document consisting of one whitespace-only paragraph
(and arbitrary-but-concrete oracles) yields no items and no LLM call. -/
theorem C10_empty_input_no_llm_call_witness :
    extract_action_items_from_single_docx (fun _ => none) (fun _ => "response")
        [⟨"   ", "Normal", []⟩] = (.ok [], []) ∧
    extract_action_items_from_notes_text (fun _ => none) (fun _ => "response") ""
      = (.ok [], []) :=
  ⟨C10_empty_input_no_llm_call.1 (fun _ => none) (fun _ => "response")
      [⟨"   ", "Normal", []⟩] (by decide),
   C10_empty_input_no_llm_call.2 (fun _ => none) (fun _ => "response")⟩

/-! ## Identity and upsert engine (`upsert_action_item` and the Notion
helpers)

From `extract_and_sync.py` lines 412-541.  The hosted Notion database is
modelled as an explicit store: a list of pages in insertion order plus a
counter issuing fresh page ids (Notion issues fresh UUIDs; a counter gives
the same freshness).  `notion_query_by_external_id` returns the first
page whose `External ID` rich-text equals the requested id, as the
Notion filter query does; `notion_create_page` appends a fresh page;
`notion_update_page` overwrites the properties of the addressed page.

`build_notion_properties` carries the fields the upsert writes; the `Due`
property (an external natural-language date parse) and the `Assignee`
property (an environment-configured name map) are omitted from the model —
no claim mentions them. -/

/-- The property payload written to a Notion page. -/
structure NotionProps where
  name : String
  statusName : String
  context : String
  externalId : String
  paragraphIndex : Option Int
deriving Repr, DecidableEq

/-- The `DEFAULT_STATUS` constant. -/
def DEFAULT_STATUS : String := "To do"

/-- The builder `build_notion_properties(ai_item, source_doc, external_id)` (the
`source_doc` argument is unused in the source body as well). -/
def build_notion_properties (ai : ActionItem) (source_doc : String)
    (external_id : String) : NotionProps :=
  { name := if ai.text = "" then "Action item" else ai.text,
    statusName := if ai.status = "done" then "Done" else DEFAULT_STATUS,
    context := ai.context.getD "",
    externalId := external_id,
    paragraphIndex := ai.paragraph_index }

/-- One page of the destination database. -/
structure NotionPage where
  pid : Nat
  props : NotionProps
deriving Repr, DecidableEq

/-- The destination database: pages in insertion order plus the fresh-id
counter. -/
structure NotionStore where
  nextId : Nat
  pages : List NotionPage
deriving Repr, DecidableEq

/-- The empty destination database. -/
def emptyStore : NotionStore := ⟨0, []⟩

/-- The external ids of the pages of the store, in page order. -/
def storeExts (s : NotionStore) : List String :=
  s.pages.map (fun pg => pg.props.externalId)

/-- The page ids of the pages of the store, in page order. -/
def storeIds (s : NotionStore) : List Nat :=
  s.pages.map (fun pg => pg.pid)

/-- The query `notion_query_by_external_id`: the id of the first page whose
`External ID` equals the requested value, if any. -/
def notion_query_by_external_id (s : NotionStore) (external_id : String) :
    Option Nat :=
  (s.pages.find? (fun pg => pg.props.externalId == external_id)).map (fun pg => pg.pid)

/-- The call `notion_create_page`: append a page with a fresh id; return the new
store and the id of the created page. -/
def notion_create_page (s : NotionStore) (props : NotionProps) :
    NotionStore × Nat :=
  ({ nextId := s.nextId + 1, pages := s.pages ++ [⟨s.nextId, props⟩] }, s.nextId)

/-- The call `notion_update_page`: overwrite the properties of the addressed page. -/
def notion_update_page (s : NotionStore) (page_id : Nat) (props : NotionProps) :
    NotionStore :=
  { s with
    pages := s.pages.map
      (fun pg => if pg.pid = page_id then { pg with props := props } else pg) }

/-- The external id `upsert_action_item` computes for an item. -/
def extOf (source_doc : String) (ai : ActionItem) : String :=
  make_external_id source_doc ai.paragraph_index ai.text

/-- The engine `upsert_action_item`: compute the external id, query for an existing
page, update it when found (returning its id and the `updated` flag),
create a fresh page only when none exists. -/
def upsert_action_item (s : NotionStore) (ai : ActionItem) (source_doc : String) :
    NotionStore × Nat × Bool :=
  let external_id := extOf source_doc ai
  let existing_page_id := notion_query_by_external_id s external_id
  let props := build_notion_properties ai source_doc external_id
  match existing_page_id with
  | some pid => (notion_update_page s pid props, pid, true)
  | none =>
    let created := notion_create_page s props
    (created.1, created.2, false)

/-- The per-document sync loop of `process_agenda_docs`: upsert each
extracted item in order, collecting the returned page id and whether the
item updated an existing page. -/
def runUpserts (s : NotionStore) (source_doc : String) :
    List ActionItem → NotionStore × List (Nat × Bool)
  | [] => (s, [])
  | it :: rest =>
    let r := upsert_action_item s it source_doc
    let rr := runUpserts r.1 source_doc rest
    (rr.1, (r.2.1, r.2.2) :: rr.2)

/-- Number of pages holding a given external id. -/
def countExt (s : NotionStore) (e : String) : Nat :=
  (s.pages.filter (fun pg => pg.props.externalId == e)).length

/-- Store well-formedness: page ids are below the counter and duplicate
free, and external ids are duplicate free. -/
def WFStore (s : NotionStore) : Prop :=
  (∀ i ∈ storeIds s, i < s.nextId) ∧ (storeIds s).Nodup ∧ (storeExts s).Nodup

/-- The query misses exactly when no page holds the external id. -/
theorem query_eq_none_iff (s : NotionStore) (e : String) :
    notion_query_by_external_id s e = none ↔ e ∉ storeExts s := by
  simp [notion_query_by_external_id, storeExts, Option.map_eq_none',
    List.find?_eq_none, List.mem_map]

/-- A successful query returns the id of a member page holding the id. -/
theorem query_some_spec (s : NotionStore) (e : String) (pid : Nat)
    (h : notion_query_by_external_id s e = some pid) :
    ∃ pg, pg ∈ s.pages ∧ pg.pid = pid ∧ pg.props.externalId = e := by
  unfold notion_query_by_external_id at h
  cases hf : s.pages.find? (fun pg => pg.props.externalId == e) with
  | none => rw [hf] at h; exact absurd h (by simp)
  | some pg =>
    rw [hf] at h
    have hpred : (pg.props.externalId == e) = true :=
      @List.find?_some NotionPage (fun pg => pg.props.externalId == e) pg s.pages hf
    exact ⟨pg, List.mem_of_find?_eq_some hf, by simpa using h, eq_of_beq hpred⟩

/-- A present external id is always found by the query. -/
theorem query_isSome_of_mem (s : NotionStore) (e : String)
    (he : e ∈ storeExts s) :
    ∃ pid, notion_query_by_external_id s e = some pid := by
  cases hq : notion_query_by_external_id s e with
  | some pid => exact ⟨pid, rfl⟩
  | none => exact absurd he ((query_eq_none_iff s e).mp hq)

/-- Updating a page changes no page id. -/
theorem update_storeIds (s : NotionStore) (pid : Nat) (props : NotionProps) :
    storeIds (notion_update_page s pid props) = storeIds s := by
  unfold storeIds notion_update_page
  simp only [List.map_map]
  apply List.map_congr_left
  intro pg _
  by_cases h : pg.pid = pid <;> simp [Function.comp, h]

/-- Updating the page found for external id `e` with properties carrying
the same id leaves the external ids of the store unchanged (page ids must be
duplicate free so that the update touches only the found page). -/
theorem update_storeExts (s : NotionStore) (e : String) (pid : Nat)
    (props : NotionProps) (hids : (storeIds s).Nodup)
    (hq : notion_query_by_external_id s e = some pid)
    (hpe : props.externalId = e) :
    storeExts (notion_update_page s pid props) = storeExts s := by
  obtain ⟨pg0, hmem0, hpid0, hext0⟩ := query_some_spec s e pid hq
  have hinj : ∀ ⦃x⦄, x ∈ s.pages → ∀ ⦃y⦄, y ∈ s.pages → x.pid = y.pid → x = y :=
    List.inj_on_of_nodup_map hids
  unfold storeExts notion_update_page
  simp only [List.map_map]
  apply List.map_congr_left
  intro pg hpg
  by_cases h : pg.pid = pid
  · have hpg0 : pg = pg0 := hinj hpg hmem0 (by rw [h, hpid0])
    simp [Function.comp, h, hpe, hpg0, hpid0, hext0]
  · simp [Function.comp, h]

/-- Properties built for an item carry exactly the computed external id. -/
theorem build_props_externalId (ai : ActionItem) (doc e : String) :
    (build_notion_properties ai doc e).externalId = e := rfl

/-- The found branch of the upsert: update the found page, return its id
and the `updated` flag. -/
theorem upsert_found_eq (s : NotionStore) (ai : ActionItem) (doc : String)
    (pid : Nat) (h : notion_query_by_external_id s (extOf doc ai) = some pid) :
    upsert_action_item s ai doc
      = (notion_update_page s pid (build_notion_properties ai doc (extOf doc ai)),
         pid, true) := by
  simp only [upsert_action_item, h]

/-- The not-found branch of the upsert: append a freshly-numbered page
holding the computed external id. -/
theorem upsert_none_eq (s : NotionStore) (ai : ActionItem) (doc : String)
    (h : notion_query_by_external_id s (extOf doc ai) = none) :
    upsert_action_item s ai doc
      = ({ nextId := s.nextId + 1,
           pages := s.pages
             ++ [⟨s.nextId, build_notion_properties ai doc (extOf doc ai)⟩] },
         s.nextId, false) := by
  simp only [upsert_action_item, notion_create_page, h]

/-- Upsert preserves store well-formedness. -/
theorem upsert_WF (s : NotionStore) (ai : ActionItem) (doc : String)
    (h : WFStore s) : WFStore (upsert_action_item s ai doc).1 := by
  obtain ⟨hb, hi, he⟩ := h
  cases hq : notion_query_by_external_id s (extOf doc ai) with
  | some pid =>
    rw [upsert_found_eq s ai doc pid hq]
    refine ⟨?_, ?_, ?_⟩
    · show ∀ i ∈ storeIds (notion_update_page s pid _), i < (notion_update_page s pid _).nextId
      rw [update_storeIds]
      exact hb
    · show (storeIds (notion_update_page s pid _)).Nodup
      rw [update_storeIds]
      exact hi
    · show (storeExts (notion_update_page s pid _)).Nodup
      rw [update_storeExts s (extOf doc ai) pid _ hi hq (build_props_externalId ai doc _)]
      exact he
  | none =>
    rw [upsert_none_eq s ai doc hq]
    have hexts : storeExts (NotionStore.mk (s.nextId + 1)
          (s.pages ++ [⟨s.nextId, build_notion_properties ai doc (extOf doc ai)⟩]))
        = storeExts s ++ [extOf doc ai] := by
      simp [storeExts, build_props_externalId]
    have hids : storeIds (NotionStore.mk (s.nextId + 1)
          (s.pages ++ [⟨s.nextId, build_notion_properties ai doc (extOf doc ai)⟩]))
        = storeIds s ++ [s.nextId] := by
      simp [storeIds]
    refine ⟨?_, ?_, ?_⟩
    · intro i hi'
      rw [hids] at hi'
      rcases List.mem_append.mp hi' with h' | h'
      · exact Nat.lt_succ_of_lt (hb i h')
      · simp at h'
        subst h'
        exact Nat.lt_succ_self _
    · rw [hids, List.nodup_append]
      refine ⟨hi, List.nodup_singleton _, ?_⟩
      intro i hi' hmem
      simp at hmem
      subst hmem
      exact absurd (hb _ hi') (Nat.lt_irrefl _)
    · rw [hexts, List.nodup_append]
      refine ⟨he, List.nodup_singleton _, ?_⟩
      intro e he' hmem
      simp at hmem
      subst hmem
      exact absurd he' ((query_eq_none_iff s _).mp hq)

/-- After an upsert, the external id of the item is present in the store. -/
theorem upsert_ext_present (s : NotionStore) (ai : ActionItem) (doc : String) :
    extOf doc ai ∈ storeExts (upsert_action_item s ai doc).1 := by
  cases hq : notion_query_by_external_id s (extOf doc ai) with
  | some pid =>
    rw [upsert_found_eq s ai doc pid hq]
    obtain ⟨pg0, hmem0, hpid0, hext0⟩ := query_some_spec s _ pid hq
    unfold storeExts notion_update_page
    simp only [List.map_map]
    refine List.mem_map.mpr ⟨pg0, hmem0, ?_⟩
    simp [Function.comp, hpid0, build_props_externalId]
  | none =>
    rw [upsert_none_eq s ai doc hq]
    simp [storeExts, build_props_externalId]

/-- An upsert never loses an external id from the store. -/
theorem upsert_exts_mono (s : NotionStore) (ai : ActionItem) (doc : String)
    (h : WFStore s) :
    ∀ e ∈ storeExts s, e ∈ storeExts (upsert_action_item s ai doc).1 := by
  intro e he
  cases hq : notion_query_by_external_id s (extOf doc ai) with
  | some pid =>
    rw [upsert_found_eq s ai doc pid hq,
      update_storeExts s (extOf doc ai) pid _ h.2.1 hq (build_props_externalId ai doc _)]
    exact he
  | none =>
    rw [upsert_none_eq s ai doc hq]
    have : storeExts (NotionStore.mk (s.nextId + 1)
          (s.pages ++ [⟨s.nextId, build_notion_properties ai doc (extOf doc ai)⟩]))
        = storeExts s ++ [extOf doc ai] := by simp [storeExts, build_props_externalId]
    rw [this]
    exact List.mem_append_left _ he

/-- Running the sync loop preserves store well-formedness. -/
theorem runUpserts_WF (doc : String) (items : List ActionItem) :
    ∀ s, WFStore s → WFStore (runUpserts s doc items).1 := by
  induction items with
  | nil => intro s h; exact h
  | cons a rest ih =>
    intro s h
    simp only [runUpserts]
    exact ih _ (upsert_WF s a doc h)

/-- The sync loop never loses an external id from the store. -/
theorem runUpserts_exts_mono (doc : String) (items : List ActionItem) :
    ∀ s, WFStore s → ∀ e ∈ storeExts s, e ∈ storeExts (runUpserts s doc items).1 := by
  induction items with
  | nil => intro s _ e he; exact he
  | cons a rest ih =>
    intro s h e he
    simp only [runUpserts]
    exact ih _ (upsert_WF s a doc h) e (upsert_exts_mono s a doc h e he)

/-- After the sync loop, the external id of every processed item is present. -/
theorem runUpserts_present (doc : String) (items : List ActionItem) :
    ∀ s, WFStore s → ∀ it ∈ items, extOf doc it ∈ storeExts (runUpserts s doc items).1 := by
  induction items with
  | nil => intro s _ it hit; exact absurd hit (List.not_mem_nil it)
  | cons a rest ih =>
    intro s h it hit
    simp only [runUpserts]
    rcases List.mem_cons.mp hit with rfl | hit'
    · exact runUpserts_exts_mono doc rest _ (upsert_WF s it doc h) _
        (upsert_ext_present s it doc)
    · exact ih _ (upsert_WF s a doc h) it hit'

/-- When the external id of every item is already present, a re-run changes no
page id, changes no external id, and every upsert reports `updated`. -/
theorem runUpserts_all_present (doc : String) (items : List ActionItem) :
    ∀ s, WFStore s → (∀ it ∈ items, extOf doc it ∈ storeExts s) →
      storeIds (runUpserts s doc items).1 = storeIds s ∧
      storeExts (runUpserts s doc items).1 = storeExts s ∧
      ∀ fl ∈ (runUpserts s doc items).2, fl.2 = true := by
  induction items with
  | nil =>
    intro s _ _
    exact ⟨rfl, rfl, by intro fl hfl; exact absurd hfl (List.not_mem_nil fl)⟩
  | cons a rest ih =>
    intro s h hall
    have hpres : extOf doc a ∈ storeExts s := hall a (List.mem_cons_self a rest)
    obtain ⟨pid, hq⟩ := query_isSome_of_mem s _ hpres
    have hupst := upsert_found_eq s a doc pid hq
    have hWF' := upsert_WF s a doc h
    have hext' : storeExts (upsert_action_item s a doc).1 = storeExts s := by
      rw [hupst]
      exact update_storeExts s _ pid _ h.2.1 hq (build_props_externalId a doc _)
    have hids' : storeIds (upsert_action_item s a doc).1 = storeIds s := by
      rw [hupst]
      exact update_storeIds s pid _
    obtain ⟨ih1, ih2, ih3⟩ := ih (upsert_action_item s a doc).1 hWF'
      (fun it hit => by rw [hext']; exact hall it (List.mem_cons_of_mem a hit))
    simp only [runUpserts]
    refine ⟨by rw [ih1, hids'], by rw [ih2, hext'], ?_⟩
    intro fl hfl
    rcases List.mem_cons.mp hfl with rfl | hfl'
    · rw [hupst]
    · exact ih3 fl hfl'

/-- Counting pages by external id equals counting within the external id list of the store. -/
theorem countExt_eq_count (s : NotionStore) (e : String) :
    countExt s e = (storeExts s).count e := by
  unfold countExt storeExts
  rw [List.count, List.countP_map, List.countP_eq_length_filter]
  rfl

/-- In a duplicate-free store, a present external id is held by exactly
one page. -/
theorem countExt_one (s : NotionStore) (e : String)
    (hn : (storeExts s).Nodup) (he : e ∈ storeExts s) : countExt s e = 1 := by
  rw [countExt_eq_count]
  exact List.count_eq_one_of_mem hn he

/-- The empty store is well formed. -/
theorem emptyStore_WF : WFStore emptyStore := by
  refine ⟨?_, ?_, ?_⟩ <;> simp [storeIds, storeExts, emptyStore]

/-- C1. Idempotent upsert: `upsert_action_item` queries for an existing
page with the computed external id, updates it and returns its identifier
when found, and creates a fresh page only when none exists; consequently,
syncing the items of a document into an empty store leaves exactly one page
per computed external id, and re-running the same sync updates every item
(every upsert reports `updated`), creates no page, and again leaves
exactly one page per external id. -/
theorem C1_idempotent_upsert :
    (∀ (s : NotionStore) (ai : ActionItem) (doc : String) (pid : Nat),
        notion_query_by_external_id s (extOf doc ai) = some pid →
          upsert_action_item s ai doc
            = (notion_update_page s pid
                 (build_notion_properties ai doc (extOf doc ai)), pid, true)) ∧
    (∀ (s : NotionStore) (ai : ActionItem) (doc : String),
        notion_query_by_external_id s (extOf doc ai) = none →
          upsert_action_item s ai doc
            = (NotionStore.mk (s.nextId + 1)
                 (s.pages
                   ++ [⟨s.nextId, build_notion_properties ai doc (extOf doc ai)⟩]),
               s.nextId, false)) ∧
    (∀ (doc : String) (items : List ActionItem),
        (∀ it ∈ items,
          countExt (runUpserts emptyStore doc items).1 (extOf doc it) = 1) ∧
        (∀ it ∈ items,
          countExt (runUpserts (runUpserts emptyStore doc items).1 doc items).1
            (extOf doc it) = 1) ∧
        storeIds (runUpserts (runUpserts emptyStore doc items).1 doc items).1
          = storeIds (runUpserts emptyStore doc items).1 ∧
        (∀ fl ∈ (runUpserts (runUpserts emptyStore doc items).1 doc items).2,
          fl.2 = true)) := by
  refine ⟨upsert_found_eq, upsert_none_eq, ?_⟩
  intro doc items
  have hWF1 := runUpserts_WF doc items emptyStore emptyStore_WF
  have hpres1 := runUpserts_present doc items emptyStore emptyStore_WF
  obtain ⟨hids2, hexts2, hflags2⟩ :=
    runUpserts_all_present doc items (runUpserts emptyStore doc items).1 hWF1 hpres1
  refine ⟨?_, ?_, hids2, hflags2⟩
  · intro it hit
    exact countExt_one _ _ hWF1.2.2 (hpres1 it hit)
  · intro it hit
    rw [countExt_eq_count, hexts2, ← countExt_eq_count]
    exact countExt_one _ _ hWF1.2.2 (hpres1 it hit)

/-- A concrete action item for the upsert witness. -/
def c1Item : ActionItem := { text := "task a", paragraph_index := some 0 }

/-- C1 witness: upserting a single item into the empty store creates page
0; running the sync twice over the same one-item list leaves exactly one
page for the external id of the item, and the whole second run reports
updates. -/
theorem C1_idempotent_upsert_witness :
    upsert_action_item emptyStore c1Item "doc.docx"
      = (NotionStore.mk 1
           [⟨0, build_notion_properties c1Item "doc.docx" (extOf "doc.docx" c1Item)⟩],
         0, false) ∧
    countExt (runUpserts emptyStore "doc.docx" [c1Item]).1 (extOf "doc.docx" c1Item)
      = 1 ∧
    countExt (runUpserts (runUpserts emptyStore "doc.docx" [c1Item]).1 "doc.docx"
        [c1Item]).1 (extOf "doc.docx" c1Item) = 1 ∧
    (∀ fl ∈ (runUpserts (runUpserts emptyStore "doc.docx" [c1Item]).1 "doc.docx"
        [c1Item]).2, fl.2 = true) :=
  ⟨C1_idempotent_upsert.2.1 emptyStore c1Item "doc.docx" rfl,
   (C1_idempotent_upsert.2.2 "doc.docx" [c1Item]).1 c1Item
      (List.mem_cons_self c1Item []),
   (C1_idempotent_upsert.2.2 "doc.docx" [c1Item]).2.1 c1Item
      (List.mem_cons_self c1Item []),
   (C1_idempotent_upsert.2.2 "doc.docx" [c1Item]).2.2.2⟩

/-! ## Drive folder walker (`drive_agendas.py`)

From `src/google_calendar/drive_agendas.py`.  The Drive folder tree is an
explicit inductive: a folder node carries its listed children (what
`list_children` returns for its id); a file node carries the outcome of
reading it (`get_doc_text` / `get_docx_text`): the exported text, or the
read error.  The LLM extraction inside `process_doc` is
`extract_action_items_from_notes_text` with the same two oracles as
above.  The Python `by_folder` nested dicts, which are populated in
traversal order, are modelled as association lists in that order. -/

/-- The `MIME_GOOGLE_DOC` constant. -/
def MIME_GOOGLE_DOC : String := "application/vnd.google-apps.document"

/-- The `MIME_FOLDER` constant. -/
def MIME_FOLDER : String := "application/vnd.google-apps.folder"

/-- The `MIME_DOCX` constant. -/
def MIME_DOCX : String :=
  "application/vnd.openxmlformats-officedocument.wordprocessingml.document"

/-- A node of the Drive tree: a folder (id, name, listed children) or a
file (id, name, mime type, and its read outcome: exported text and error). -/
inductive DNode where
  | folder (id : String) (name : String) (children : List DNode)
  | file (id : String) (name : String) (mimeType : String)
      (readText : Option String) (readErr : Option String)

/-- The `name` field of a Drive entry. -/
def nodeName : DNode → String
  | .folder _ n _ => n
  | .file _ n _ _ _ => n

/-- The `id` field of a Drive entry. -/
def nodeId : DNode → String
  | .folder i _ _ => i
  | .file i _ _ _ _ => i

/-- The `mimeType` field of a Drive entry (folders list as `MIME_FOLDER`). -/
def nodeMime : DNode → String
  | .folder _ _ _ => MIME_FOLDER
  | .file _ _ m _ _ => m

/-- The listing `list_children` of an entry: the listed children of a folder; a file has
none. -/
def nodeChildren : DNode → List DNode
  | .folder _ _ cs => cs
  | .file _ _ _ _ _ => []

/-- The read outcome of an entry (`get_doc_text` / `get_docx_text`). -/
def nodeReadText : DNode → Option String
  | .folder _ _ _ => none
  | .file _ _ _ t _ => t

/-- The read error of an entry. -/
def nodeReadErr : DNode → Option String
  | .folder _ _ _ => none
  | .file _ _ _ _ e => e

/-- The predicate `_is_archived_folder(name)`: empty names are kept; otherwise strip and
lower-case, require the substring `archive`, and skip names led by `**`,
by `*archive`, containing `**archive`, or led by `*` with `archive`
anywhere. -/
def is_archived_folder (name : String) : Bool :=
  if name = "" then false
  else
    let n := pyLower (pyStrip name)
    if !(strContains n "archive") then false
    else if pyStartsWith n "**" || pyStartsWith n "*archive" || strContains n "**archive" then
      true
    else if pyStartsWith n "*" && strContains n "archive" then true
    else false

/-- Whether a listed child is a folder. -/
def isFolderEntry (n : DNode) : Bool := nodeMime n == MIME_FOLDER

/-- Whether a listed child is a document (native Google Doc or uploaded
`.docx`). -/
def isDocEntry (n : DNode) : Bool :=
  nodeMime n == MIME_GOOGLE_DOC || nodeMime n == MIME_DOCX

/-- The year filter applied to document names:
`"2026" in name and "2025" not in name`. -/
def is2026Doc (n : DNode) : Bool :=
  strContains (nodeName n) "2026" && !(strContains (nodeName n) "2025")

/-- The documents the walk processes among the listed children of a folder:
document-typed entries passing the year filter. -/
def selectDocs2026 (children : List DNode) : List DNode :=
  (children.filter isDocEntry).filter is2026Doc

/-- The viewer link `process_doc` constructs. -/
def docLinkFor (mime_type file_id : String) : String :=
  if mime_type = MIME_GOOGLE_DOC then
    "https://docs.google.com/document/d/" ++ file_id ++ "/edit"
  else "https://drive.google.com/file/d/" ++ file_id ++ "/view"

/-- The provenance annotation `process_doc` adds to each extracted item. -/
def annotateItem (category_name person_folder_name doc_name doc_link : String)
    (it : ActionItem) : ActionItem :=
  { it with
    source_category := some category_name,
    source_folder := some person_folder_name,
    source_doc := some doc_name,
    doc_link := some doc_link }

/-- One per-document result record of the walk. -/
structure DocOut where
  doc_name : String
  doc_id : String
  doc_link : String
  items : List ActionItem
  error : Option String
deriving Repr, DecidableEq

/-- The function `process_doc(file_id, doc_name, category_name, person_folder_name,
mime_type)`: build the viewer link; an unreadable or empty document yields
an empty item list with the read error (or the default message); an
extraction failure yields an empty item list with the exception text; a
successful extraction yields the items annotated with their provenance. -/
def process_doc (jsonLoads : String → Option (List RawItem)) (llm : String → String)
    (file_id doc_name category_name person_folder_name mime_type : String)
    (readText readErr : Option String) : DocOut :=
  let doc_link := docLinkFor mime_type file_id
  let text := readText.getD ""
  if text = "" then
    { doc_name := doc_name, doc_id := file_id, doc_link := doc_link, items := [],
      error := some
        (match readErr with
         | some e =>
             if e = "" then "Could not read document (empty or unsupported format)"
             else e
         | none => "Could not read document (empty or unsupported format)") }
  else
    match (extract_action_items_from_notes_text jsonLoads llm text).1 with
    | .error e =>
      { doc_name := doc_name, doc_id := file_id, doc_link := doc_link, items := [],
        error := some e }
    | .ok items =>
      { doc_name := doc_name, doc_id := file_id, doc_link := doc_link,
        items := items.map
          (annotateItem category_name person_folder_name doc_name doc_link),
        error := none }

/-- The function `process_doc` applied to a listed document node (with the
mime-type defaulting of the source). -/
def processDocNode (jsonLoads : String → Option (List RawItem)) (llm : String → String)
    (category_name person_folder_name : String) (d : DNode) : DocOut :=
  process_doc jsonLoads llm (nodeId d) (nodeName d) category_name person_folder_name
    (if nodeMime d = "" then MIME_GOOGLE_DOC else nodeMime d)
    (nodeReadText d) (nodeReadErr d)

/-- The per-category body of the walk: direct 2026 documents of the
category folder under the section `"This folder"` (present only when
nonempty), then each non-archived person/project subfolder with its 2026
documents. -/
def walkCategory (jsonLoads : String → Option (List RawItem)) (llm : String → String)
    (category_name : String) (category_children : List DNode) :
    String × List (String × List DocOut) :=
  let person_subfolders := category_children.filter isFolderEntry
  let direct_docs_2026 := selectDocs2026 category_children
  let sections1 :=
    if direct_docs_2026.isEmpty then ([] : List (String × List DocOut))
    else [("This folder",
      direct_docs_2026.map (processDocNode jsonLoads llm category_name "This folder"))]
  let persons := person_subfolders.filter (fun p => !(is_archived_folder (nodeName p)))
  let sections2 := persons.map (fun p =>
    (nodeName p,
     (selectDocs2026 (nodeChildren p)).map
       (processDocNode jsonLoads llm category_name (nodeName p))))
  (category_name, sections1 ++ sections2)

/-- The walk result: the nested per-category structure and the flattened
item list in traversal order. -/
structure WalkResult where
  by_folder : List (String × List (String × List DocOut))
  all_items_flat : List ActionItem
deriving Repr, DecidableEq

/-- The walk `walk_agendas_and_extract` over the listed children of the root folder:
category folders are the non-archived folder entries; each is walked with
`walkCategory`; the flat list concatenates the per-document
items in traversal order. -/
def walk_agendas_and_extract (jsonLoads : String → Option (List RawItem))
    (llm : String → String) (rootChildren : List DNode) : WalkResult :=
  let category_folders := rootChildren.filter
    (fun c => isFolderEntry c && !(is_archived_folder (nodeName c)))
  let by_folder := category_folders.map
    (fun c => walkCategory jsonLoads llm (nodeName c) (nodeChildren c))
  { by_folder := by_folder,
    all_items_flat := by_folder.flatMap
      (fun cat => cat.2.flatMap (fun sec => sec.2.flatMap (fun out => out.items))) }

/-- C7. Batch resilience: `process_doc` catches an extraction failure at
that document, recording an empty item list and the error note, so for
three readable documents A, B, C where only the extraction of B fails, the
mapped result list still carries the annotated items of A and of C plus an
error entry for B, and the flattened item list is the items of A followed
by those of C — one failing document never aborts the batch. -/
theorem C7_batch_resilience
    (jsonLoads : String → Option (List RawItem)) (llm : String → String)
    (category person : String)
    (idA idB idC nA nB nC mA mB mC tA tB tC : String)
    (la lc : List ActionItem) (e : String)
    (hA : tA ≠ "") (hB : tB ≠ "") (hC : tC ≠ "")
    (heA : (extract_action_items_from_notes_text jsonLoads llm tA).1 = .ok la)
    (heB : (extract_action_items_from_notes_text jsonLoads llm tB).1 = .error e)
    (heC : (extract_action_items_from_notes_text jsonLoads llm tC).1 = .ok lc) :
    (([DNode.file idA nA mA (some tA) none,
       DNode.file idB nB mB (some tB) none,
       DNode.file idC nC mC (some tC) none].map
        (fun d => ((processDocNode jsonLoads llm category person d).items,
                   (processDocNode jsonLoads llm category person d).error)))
      = [(la.map (annotateItem category person nA
            (docLinkFor (if mA = "" then MIME_GOOGLE_DOC else mA) idA)), none),
         ([], some e),
         (lc.map (annotateItem category person nC
            (docLinkFor (if mC = "" then MIME_GOOGLE_DOC else mC) idC)), none)]) ∧
    (([DNode.file idA nA mA (some tA) none,
       DNode.file idB nB mB (some tB) none,
       DNode.file idC nC mC (some tC) none].map
        (processDocNode jsonLoads llm category person)).flatMap (fun o => o.items)
      = la.map (annotateItem category person nA
          (docLinkFor (if mA = "" then MIME_GOOGLE_DOC else mA) idA))
        ++ lc.map (annotateItem category person nC
          (docLinkFor (if mC = "" then MIME_GOOGLE_DOC else mC) idC))) := by
  have doA : processDocNode jsonLoads llm category person
      (DNode.file idA nA mA (some tA) none)
      = { doc_name := nA, doc_id := idA,
          doc_link := docLinkFor (if mA = "" then MIME_GOOGLE_DOC else mA) idA,
          items := la.map (annotateItem category person nA
            (docLinkFor (if mA = "" then MIME_GOOGLE_DOC else mA) idA)),
          error := none } := by
    simp only [processDocNode, process_doc, nodeId, nodeName, nodeMime, nodeReadText,
      nodeReadErr, Option.getD, if_neg hA, heA]
  have doB : processDocNode jsonLoads llm category person
      (DNode.file idB nB mB (some tB) none)
      = { doc_name := nB, doc_id := idB,
          doc_link := docLinkFor (if mB = "" then MIME_GOOGLE_DOC else mB) idB,
          items := [], error := some e } := by
    simp only [processDocNode, process_doc, nodeId, nodeName, nodeMime, nodeReadText,
      nodeReadErr, Option.getD, if_neg hB, heB]
  have doC : processDocNode jsonLoads llm category person
      (DNode.file idC nC mC (some tC) none)
      = { doc_name := nC, doc_id := idC,
          doc_link := docLinkFor (if mC = "" then MIME_GOOGLE_DOC else mC) idC,
          items := lc.map (annotateItem category person nC
            (docLinkFor (if mC = "" then MIME_GOOGLE_DOC else mC) idC)),
          error := none } := by
    simp only [processDocNode, process_doc, nodeId, nodeName, nodeMime, nodeReadText,
      nodeReadErr, Option.getD, if_neg hC, heC]
  constructor
  · simp [doA, doB, doC]
  · simp [doA, doB, doC]

/-- The JSON oracle of the C7 witness: only the literal `"[ok]"` parses,
to one empty object. -/
def c7JsonLoads : String → Option (List RawItem) :=
  fun s => if s = "[ok]" then some [{}] else none

/-- The LLM oracle of the C7 witness: the prompt for document B draws a response
whose bracket substring fails to parse; every other prompt draws
`"[ok]"`. -/
def c7Llm : String → String :=
  fun p => if p = formatRawNotesPrompt "B" then "err [x] oops" else "[ok]"

/-- C7 witness: documents with texts `"A"`, `"B"`, `"C"` under the C7
oracles — the extraction of B raises while A and C succeed — still produce
the items of A and of C plus an error entry for B. -/
theorem C7_batch_resilience_witness :
    ([DNode.file "a" "Doc A" MIME_DOCX (some "A") none,
       DNode.file "b" "Doc B" MIME_DOCX (some "B") none,
       DNode.file "c" "Doc C" MIME_DOCX (some "C") none].map
        (fun d => ((processDocNode c7JsonLoads c7Llm "Cat" "Alice" d).items,
                   (processDocNode c7JsonLoads c7Llm "Cat" "Alice" d).error)))
      = [([normalizeFreeItem 0 {}].map (annotateItem "Cat" "Alice" "Doc A"
            (docLinkFor (if MIME_DOCX = "" then MIME_GOOGLE_DOC else MIME_DOCX) "a")),
          none),
         ([], some "json.decoder.JSONDecodeError"),
         ([normalizeFreeItem 0 {}].map (annotateItem "Cat" "Alice" "Doc C"
            (docLinkFor (if MIME_DOCX = "" then MIME_GOOGLE_DOC else MIME_DOCX) "c")),
          none)] :=
  (C7_batch_resilience c7JsonLoads c7Llm "Cat" "Alice" "a" "b" "c"
    "Doc A" "Doc B" "Doc C" MIME_DOCX MIME_DOCX MIME_DOCX "A" "B" "C"
    [normalizeFreeItem 0 {}] [normalizeFreeItem 0 {}] "json.decoder.JSONDecodeError"
    (by decide) (by decide) (by decide) rfl rfl rfl).1

/-- C8. Year filter: among the listed children of a folder, a document is
selected for processing iff it is a document-typed entry whose name
contains `"2026"` and does not contain `"2025"`; among the three example
names only `"2026 Plan.docx"` passes, and a walk over a folder holding
the three documents processes exactly that one. -/
theorem C8_year_filter :
    (∀ (children : List DNode) (d : DNode),
        d ∈ selectDocs2026 children ↔
          (d ∈ children ∧ isDocEntry d = true ∧
            strContains (nodeName d) "2026" = true ∧
            strContains (nodeName d) "2025" = false)) ∧
    (selectDocs2026
        [DNode.file "id1" "2025 Plan.docx" MIME_DOCX (some "t1") none,
         DNode.file "id2" "2026 Plan.docx" MIME_DOCX (some "t2") none,
         DNode.file "id3" "2026-2025 Summary.docx" MIME_DOCX (some "t3") none]).map
        nodeName
      = ["2026 Plan.docx"] ∧
    walk_agendas_and_extract (fun _ => some []) (fun _ => "[]")
        [DNode.folder "cid" "Staff Meetings"
          [DNode.folder "pid" "Alice"
            [DNode.file "id1" "2025 Plan.docx" MIME_DOCX (some "t1") none,
             DNode.file "id2" "2026 Plan.docx" MIME_DOCX (some "t2") none,
             DNode.file "id3" "2026-2025 Summary.docx" MIME_DOCX (some "t3") none]]]
      = { by_folder := [("Staff Meetings", [("Alice",
            [{ doc_name := "2026 Plan.docx", doc_id := "id2",
               doc_link := "https://drive.google.com/file/d/id2/view",
               items := [], error := none }])])],
          all_items_flat := [] } := by
  refine ⟨?_, by decide, by decide⟩
  intro children d
  simp only [selectDocs2026, List.mem_filter, is2026Doc, Bool.and_eq_true,
    Bool.not_eq_true']
  tauto

/-- C8 witness: the filter characterization applied at the example list,
deriving that the second document is selected. -/
theorem C8_year_filter_witness :
    DNode.file "id2" "2026 Plan.docx" MIME_DOCX (some "t2") none ∈
      selectDocs2026
        [DNode.file "id1" "2025 Plan.docx" MIME_DOCX (some "t1") none,
         DNode.file "id2" "2026 Plan.docx" MIME_DOCX (some "t2") none,
         DNode.file "id3" "2026-2025 Summary.docx" MIME_DOCX (some "t3") none] :=
  (C8_year_filter.1 _ _).mpr
    ⟨by simp, by decide, by decide, by decide⟩

/-- The category walk `walkCategory` never descends into an archived person/project
subfolder: removing such a subfolder from the children of the category
leaves the category result unchanged. -/
theorem walkCategory_skips_archived
    (jsonLoads : String → Option (List RawItem)) (llm : String → String)
    (cname : String) (ds bs : List DNode) (aid aname : String)
    (kids : List DNode) (h : is_archived_folder aname = true) :
    walkCategory jsonLoads llm cname (ds ++ DNode.folder aid aname kids :: bs)
      = walkCategory jsonLoads llm cname (ds ++ bs) := by
  have hfold : isFolderEntry (DNode.folder aid aname kids) = true := rfl
  have hdoc : isDocEntry (DNode.folder aid aname kids) = false := rfl
  simp [walkCategory, selectDocs2026, List.filter_append, List.filter_cons,
    hfold, hdoc, h, nodeName]

/-- C9. Archived-folder exclusion: a folder whose name matches the
archived pattern is never descended into at any level of the walk —
removing it from the root category list, or from the
person/project subfolders, leaves the entire walk result (`by_folder` and
the flattened item list) unchanged, so no document beneath it
contributes anything. -/
theorem C9_archived_folder_exclusion :
    (∀ (jsonLoads : String → Option (List RawItem)) (llm : String → String)
       (xs ys : List DNode) (aid aname : String) (kids : List DNode),
        is_archived_folder aname = true →
          walk_agendas_and_extract jsonLoads llm
              (xs ++ DNode.folder aid aname kids :: ys)
            = walk_agendas_and_extract jsonLoads llm (xs ++ ys)) ∧
    (∀ (jsonLoads : String → Option (List RawItem)) (llm : String → String)
       (xs ys : List DNode) (cid cname : String) (ds bs : List DNode)
       (aid aname : String) (kids : List DNode),
        is_archived_folder aname = true →
          walk_agendas_and_extract jsonLoads llm
              (xs ++ DNode.folder cid cname
                (ds ++ DNode.folder aid aname kids :: bs) :: ys)
            = walk_agendas_and_extract jsonLoads llm
              (xs ++ DNode.folder cid cname (ds ++ bs) :: ys)) := by
  constructor
  · intro jsonLoads llm xs ys aid aname kids h
    have hp : (isFolderEntry (DNode.folder aid aname kids)
        && !(is_archived_folder (nodeName (DNode.folder aid aname kids)))) = false := by
      simp [isFolderEntry, nodeMime, nodeName, h]
    simp only [walk_agendas_and_extract, List.filter_append, List.filter_cons, hp,
      Bool.false_eq_true, if_false]
  · intro jsonLoads llm xs ys cid cname ds bs aid aname kids h
    have hcat := walkCategory_skips_archived jsonLoads llm cname ds bs aid aname kids h
    have hpred : ∀ cs : List DNode,
        (isFolderEntry (DNode.folder cid cname cs)
          && !(is_archived_folder (nodeName (DNode.folder cid cname cs))))
          = !(is_archived_folder cname) := by
      intro cs
      simp [isFolderEntry, nodeMime, nodeName]
    simp only [walk_agendas_and_extract, List.filter_append, List.filter_cons, hpred]
    cases hb : is_archived_folder cname with
    | true =>
      simp [hb]
    | false =>
      simp [hb, nodeName, nodeChildren, hcat]

/-- C9 witness: at the concrete name `"**Archive 2024"`, removing the
archived folder from either level leaves the walk unchanged. -/
theorem C9_archived_folder_exclusion_witness :
    walk_agendas_and_extract (fun _ => some []) (fun _ => "[]")
        [DNode.folder "aid" "**Archive 2024"
          [DNode.file "hid" "2026 Hidden.docx" MIME_DOCX (some "t") none]]
      = walk_agendas_and_extract (fun _ => some []) (fun _ => "[]") [] ∧
    walk_agendas_and_extract (fun _ => some []) (fun _ => "[]")
        [DNode.folder "cid" "Projects"
          [DNode.folder "aid" "**Archive 2024"
            [DNode.file "hid" "2026 Hidden.docx" MIME_DOCX (some "t") none]]]
      = walk_agendas_and_extract (fun _ => some []) (fun _ => "[]")
          [DNode.folder "cid" "Projects" []] := by
  constructor
  · exact C9_archived_folder_exclusion.1 (fun _ => some []) (fun _ => "[]")
      [] [] "aid" "**Archive 2024"
      [DNode.file "hid" "2026 Hidden.docx" MIME_DOCX (some "t") none] (by decide)
  · exact C9_archived_folder_exclusion.2 (fun _ => some []) (fun _ => "[]")
      [] [] "cid" "Projects" [] [] "aid" "**Archive 2024"
      [DNode.file "hid" "2026 Hidden.docx" MIME_DOCX (some "t") none] (by decide)
